import Mathlib

/-
Verification of the harvest-and-classify pipeline of
`src/users/management/commands/update_steam_sales.py` (`Command.handle`).

The embedding models one run of the command:
  * raw API records with possibly-absent / explicitly-null JSON fields,
  * the scam/anomaly filter (lines 103-139),
  * the three-way classification and ranking (lines 141-193),
  * the pagination loop (lines 45-95),
  * the snapshot / legacy write tail (lines 196-221).
Python floats are modelled by `Rat` (every comparison performed by the code on
the constants involved is exact), machine strings by `String`, and Python
exceptions by an `Except` layer.
-/

set_option linter.unusedVariables false

deriving instance DecidableEq for Except

/-- Presence state of one optional JSON field of a raw API record: the key can
be absent from the dict, present with an explicit `null`, or carry a value. -/
inductive Fld (α : Type) where
  | absent
  | null
  | val (a : α)
deriving DecidableEq

/-- Python `item.get(k)`: `None` both for an absent key and for a null value. -/
def Fld.get {α : Type} : Fld α → Option α
  | .absent => none
  | .null => none
  | .val a => some a

/-- Python `item.get(k, d)`: the default `d` applies only when the key is
absent; an explicit null still comes back as `None`. -/
def Fld.getD {α : Type} (d : α) : Fld α → Option α
  | .absent => some d
  | .null => none
  | .val a => some a

/-- Python `x or 0` applied to an optional number: `None` and `0` are falsy. -/
def orZeroNum (o : Option Rat) : Rat :=
  match o with
  | none => 0
  | some v => if v = 0 then 0 else v

/-- Python `x or ''` applied to an optional string: `None` and `''` are falsy. -/
def orEmptyStr (o : Option String) : String :=
  match o with
  | none => ""
  | some s => if s = "" then "" else s

/-- Lexicographic code-point order on character lists, as Python orders `str`. -/
def charListLt : List Char → List Char → Bool
  | [], [] => false
  | [], _ :: _ => true
  | _ :: _, [] => false
  | a :: as, b :: bs => if a < b then true else if b < a then false else charListLt as bs

/-- Python `a < b` on strings. -/
def pyStrLt (a b : String) : Bool := charListLt a.data b.data

/-- Python `a >= b` on strings (negation of `<` in the total lexicographic
order). -/
def pyStrGe (a b : String) : Bool := ! pyStrLt a b

/-- Substring occurrence test over character lists, modelling Python
`needle in hay`. -/
def subOccurs (needle : List Char) : List Char → Bool
  | [] => needle.isEmpty
  | c :: rest => needle.isPrefixOf (c :: rest) || subOccurs needle rest

/-- Python `needle in hay` for strings. -/
def strContains (hay needle : String) : Bool := subOccurs needle.data hay.data

/-- Python `s.lower()`: lowercase every character (the titles and keywords the
code compares are ASCII, where `Char.toLower` and Python agree). -/
def pyLower (s : String) : String := ⟨s.data.map Char.toLower⟩

/-- The fixed scam keyword list of line 135. -/
def scamKeywords : List String :=
  ["puzzle pack", "dlc bundle", "soundtrack", "ost", "artbook"]

/-- Python exceptions that the classification loop can raise. -/
inductive PyErr where
  /-- `TypeError`, from comparing `None < 3`. -/
  | typeErr
  /-- `AttributeError`, from `None.lower()`. -/
  | attrErr
deriving DecidableEq

/-- One raw listing as fetched from the source API, with the fields that
`Command.handle` reads.  Every field is optional at the JSON level. -/
structure RawItem where
  game_id : Fld String
  end_dt : Fld String
  discount_rt : Fld Rat
  sale_price_va : Fld Rat
  full_price_va : Fld Rat
  sale_cn : Fld Rat
  title_nm : Fld String
  img_lk : Fld String
  store_lk : Fld String
deriving DecidableEq

/-- The normalized `game_info` dict built at lines 141-151, with the
`is_best_price` tag added when it is stored in the best-price map. -/
structure GameInfo where
  game_id : Option String
  title : Option String
  current_price : Rat
  original_price : Rat
  discount_rate : Rat
  thumbnail : Option String
  store_link : Option String
  end_date : String
  sale_count : Option Rat
  is_best_price : Bool
deriving DecidableEq

/-- Loop state of the classification pass (lines 97-164). -/
structure PState where
  current_sales : List GameInfo
  best_prices : List (String × GameInfo)
  skipped_scam : Nat
deriving DecidableEq

/-- Initial loop state (lines 98-101). -/
def initState : PState := { current_sales := [], best_prices := [], skipped_scam := 0 }

/-- The normalized record (lines 104-109 and 141-151): local variables of the
loop body become the persisted `game_info` fields. -/
def normalizeItem (item : RawItem) : GameInfo :=
  { game_id := item.game_id.get
    title := item.title_nm.get
    current_price := orZeroNum item.sale_price_va.get
    original_price := orZeroNum item.full_price_va.get
    discount_rate := orZeroNum item.discount_rt.get
    thumbnail := item.img_lk.get
    store_link := item.store_lk.get
    end_date := orEmptyStr item.end_dt.get
    sale_count := item.sale_cn.getD 0
    is_best_price := false }

/-- The scam/bug filter (lines 111-139), one record at a time.  `ok true`
means the record is rejected (the Python code increments `skipped_scam` and
`continue`s); `ok false` means it survives; `error` models the exceptions the
Python code raises on explicit nulls: `None < 3` at rule 4 and `None.lower()`
at line 134. -/
def anomalyCheck (item : RawItem) : Except PyErr Bool := do
  let discount_rt := orZeroNum item.discount_rt.get
  let sale_price := orZeroNum item.sale_price_va.get
  let full_price := orZeroNum item.full_price_va.get
  let sale_count : Option Rat := item.sale_cn.getD 0
  if discount_rt > 1 then return true
  else if full_price > 500000 then return true
  else if discount_rt ≥ mkRat 9 10 ∧ sale_price > 30000 then return true
  else
    match sale_count with
    | none => throw .typeErr
    | some sc =>
      if sc < 3 ∧ discount_rt ≥ mkRat 19 20 then return true
      else
        match item.title_nm with
        | .null => throw .attrErr
        | .absent =>
          if discount_rt ≥ mkRat 19 20 ∧ (scamKeywords.any fun kw => strContains "" kw) then
            return true
          else return false
        | .val s =>
          if discount_rt ≥ mkRat 19 20 ∧ (scamKeywords.any fun kw => strContains (pyLower s) kw) then
            return true
          else return false

/-- The current-sales test (lines 153-156): end date still running (or empty),
and a truthy, positive discount rate. -/
def isCur (today : String) (g : GameInfo) : Bool :=
  (pyStrGe g.end_date today || g.end_date == "") &&
    (!(g.discount_rate == 0) && decide (g.discount_rate > 0))

/-- Lookup in the insertion-ordered best-price dict. -/
def lookupBP : List (String × GameInfo) → String → Option GameInfo
  | [], _ => none
  | (k, e) :: rest, g => if k = g then some e else lookupBP rest g

/-- Python dict assignment `best_prices[g] = v`: replace in place when the key
exists, append otherwise (insertion order preserved). -/
def setBP : List (String × GameInfo) → String → GameInfo → List (String × GameInfo)
  | [], g, v => [(g, v)]
  | (k, e) :: rest, g, v => if k = g then (g, v) :: rest else (k, e) :: setBP rest g v

/-- The best-price update (lines 158-164): only for a truthy `game_id` and a
truthy positive `sale_price`; insert when unseen, replace when the new price is
strictly lower. -/
def stepBest (bp : List (String × GameInfo)) (g : GameInfo) : List (String × GameInfo) :=
  match g.game_id with
  | none => bp
  | some gid =>
    if gid = "" then bp
    else if g.current_price = 0 then bp
    else if ¬ g.current_price > 0 then bp
    else
      let doSet :=
        match lookupBP bp gid with
        | none => true
        | some e => decide (g.current_price < e.current_price)
      if doSet then setBP bp gid { g with is_best_price := true } else bp

/-- Effect of one surviving record on the loop state (lines 141-164). -/
def applyInfo (today : String) (st : PState) (g : GameInfo) : PState :=
  { st with
    current_sales := if isCur today g then st.current_sales ++ [g] else st.current_sales
    best_prices := stepBest st.best_prices g }

/-- One iteration of the classification loop (lines 103-164). -/
def processItem (today : String) (st : PState) (item : RawItem) : Except PyErr PState := do
  let anom ← anomalyCheck item
  if anom then pure { st with skipped_scam := st.skipped_scam + 1 }
  else pure (applyInfo today st (normalizeItem item))

/-- The whole classification loop over the fetched records. -/
def processAll (today : String) (st : PState) (items : List RawItem) : Except PyErr PState :=
  items.foldlM (processItem today) st

/-- The records surviving the anomaly filter, normalized, in fetch order
(raising exactly where the loop does). -/
def filteredInfos : List RawItem → Except PyErr (List GameInfo)
  | [] => .ok []
  | item :: rest => do
    let anom ← anomalyCheck item
    let tail ← filteredInfos rest
    if anom then pure tail else pure (normalizeItem item :: tail)

/-- Stable insertion into a list sorted by strictly decreasing key: the new
element goes in front of the first element whose key is not larger.  This is
the unique stable-descending placement, matching Python
`list.sort(key=..., reverse=True)`. -/
def insertDescBy (key : GameInfo → Rat) (a : GameInfo) : List GameInfo → List GameInfo
  | [] => [a]
  | b :: t => if key b > key a then b :: insertDescBy key a t else a :: b :: t

/-- Stable descending sort by a rational key, matching Python
`list.sort(key=..., reverse=True)` (which is stable). -/
def sortDescBy (key : GameInfo → Rat) : List GameInfo → List GameInfo
  | [] => []
  | a :: t => insertDescBy key a (sortDescBy key t)

/-- Sort key `x.get('discount_rate', 0) or 0` of lines 169 and 179 (the key is
always present in a `game_info`). -/
def discKey (g : GameInfo) : Rat := orZeroNum (some g.discount_rate)

/-- Sort key `x.get('sale_count', 0) or 0` of line 174. -/
def saleKey (g : GameInfo) : Rat := orZeroNum g.sale_count

/-- The persisted snapshot document (lines 182-193); `updated_at` is wall-clock
output and carries no information about the pipeline. -/
structure Snapshot where
  current_sales : List GameInfo
  top_sales : List GameInfo
  best_prices : List GameInfo
  stats_total_fetched : Nat
  stats_current_count : Nat
  stats_top_count : Nat
  stats_best_prices_count : Nat
deriving DecidableEq

instance : Inhabited Snapshot :=
  ⟨{ current_sales := [], top_sales := [], best_prices := []
     stats_total_fetched := 0, stats_current_count := 0
     stats_top_count := 0, stats_best_prices_count := 0 }⟩

/-- The post-loop phase (lines 166-193): sorting, derivation of `top_sales`,
conversion of the best-price dict to a list, and truncation into the snapshot
document, from the loop's accumulators. -/
def mkSnapshot (total : Nat) (cs : List GameInfo) (bp : List (String × GameInfo)) : Snapshot :=
  let sortedCurrent := sortDescBy discKey cs
  let popular := sortedCurrent.filter fun g => decide (orZeroNum (some g.discount_rate) ≥ mkRat 1 2)
  let popularSorted := sortDescBy saleKey popular
  let top_sales := popularSorted.take 50
  let bpValues := bp.map Prod.snd
  let bpSorted := sortDescBy discKey bpValues
  { current_sales := sortedCurrent.take 500
    top_sales := top_sales.take 50
    best_prices := bpSorted.take 200
    stats_total_fetched := total
    stats_current_count := cs.length
    stats_top_count := top_sales.length
    stats_best_prices_count := bpValues.length }

/-- The classification phase of one run (lines 97-193): the loop followed by
the sorting, derivation of `top_sales`, and truncation into the snapshot. -/
def classify (today : String) (items : List RawItem) : Except PyErr Snapshot :=
  (processAll today initState items).map fun st =>
    mkSnapshot items.length st.current_sales st.best_prices

/-- Result of one page request in the fetch loop: a non-2xx status, a
transport/JSON exception (both `break`), or a JSON body whose `list` entry
holds the page's items. -/
inductive PageResult where
  | fail
  | ok (items : List RawItem)

/-- Items carried by a page result (a failed request contributes nothing). -/
def pageItems : PageResult → List RawItem
  | .fail => []
  | .ok items => items

/-- The pagination loop (lines 45-95): starting from `page`, keep requesting
while fewer than `target` items are accumulated; stop on a failed request or an
empty page; the accumulator is returned untruncated. -/
def fetchFrom (resp : Nat → PageResult) (target : Nat) (page : Nat)
    (acc : List RawItem) : List RawItem :=
  if acc.length < target then
    match resp page with
    | .fail => acc
    | .ok [] => acc
    | .ok (i :: rest) => fetchFrom resp target (page + 1) (acc ++ i :: rest)
  else acc
termination_by target - acc.length
decreasing_by simp_all; omega

/-- The fetch phase: pagination is 1-indexed and starts with an empty
accumulator (lines 45-46). -/
def fetchLoop (resp : Nat → PageResult) (target : Nat) : List RawItem :=
  fetchFrom resp target 1 []

/-- Outcome of streaming the JSON payload into an open file: either the dump
completes, or it fails partway having written only a proper part of it. -/
inductive DumpOutcome where
  | completed
  | interrupted (written : String)

/-- File content after the primary snapshot write attempt of lines 199-200:
`open(file_path, 'w')` truncates whatever was there before `json.dump` streams
the payload, so the previous content (`old`) is destroyed either way. -/
def primarySnapshotWrite (payload old : String) (o : DumpOutcome) : String :=
  match o with
  | .completed => payload
  | .interrupted written => written

/-- The write-temp-then-rename discipline the specification asks for, for
comparison: an interrupted dump leaves the previously existing content. -/
def atomicWriteSpec (payload old : String) (o : DumpOutcome) : String :=
  match o with
  | .completed => payload
  | .interrupted _ => old

/-- Observable outcome of the save tail of the run (lines 196-221). -/
structure WriteTrace where
  primaryAttempted : Bool
  legacyAttempted : Bool
  reportedFailure : Bool
deriving DecidableEq

/-- Control flow of the save tail (lines 196-221): the primary write is always
attempted; an `IOError` there raises `CommandError` immediately, so the legacy
write only happens when the primary write succeeded, and a legacy failure is
only logged (the run still succeeds). -/
def saveOutputs (primaryOk legacyOk : Bool) : WriteTrace :=
  if primaryOk then
    { primaryAttempted := true, legacyAttempted := true, reportedFailure := false }
  else
    { primaryAttempted := true, legacyAttempted := false, reportedFailure := true }

/-- Folding the best-price update over a sequence of surviving records. -/
def bestFold (bp : List (String × GameInfo)) (infos : List GameInfo) : List (String × GameInfo) :=
  infos.foldl stepBest bp

/-- Sale count of a record as the claim reads it: the `sale_cn` value, `0`
when the key is absent (the claim presupposes it is a number when present). -/
def claimSaleCount (item : RawItem) : Rat :=
  match item.sale_cn with
  | .val v => v
  | _ => 0

/-- Lowercased title of a record as the claim reads it: the lowercased
`title_nm` value, `''` when the key is absent. -/
def claimTitle (item : RawItem) : String :=
  match item.title_nm with
  | .val s => pyLower s
  | _ => ""

/-- The five rejection rules as the claim states them, an OR of independent
conditions over the record's fields. -/
def anomalousSpec (item : RawItem) : Prop :=
  orZeroNum item.discount_rt.get > 1 ∨
  orZeroNum item.full_price_va.get > 500000 ∨
  (orZeroNum item.discount_rt.get ≥ mkRat 9 10 ∧ orZeroNum item.sale_price_va.get > 30000) ∨
  (claimSaleCount item < 3 ∧ orZeroNum item.discount_rt.get ≥ mkRat 19 20) ∨
  (orZeroNum item.discount_rt.get ≥ mkRat 19 20 ∧
    ∃ kw ∈ scamKeywords, strContains (claimTitle item) kw = true)

instance anomalousSpecDecidable (item : RawItem) : Decidable (anomalousSpec item) := by
  unfold anomalousSpec
  infer_instance

/-- Prices at which a given game id occurs in a record sequence with a
positive current price (the occurrences the best-price view ranges over). -/
def occPrices (infos : List GameInfo) (g : String) : List Rat :=
  (infos.filter fun i => i.game_id == some g && decide (i.current_price > 0)).map
    fun i => i.current_price

/-- Record builder for the concrete test inputs below. -/
def mkItem (gid ed : Fld String) (dr sp fp sc : Fld Rat) (t : Fld String) : RawItem :=
  { game_id := gid, end_dt := ed, discount_rt := dr, sale_price_va := sp,
    full_price_va := fp, sale_cn := sc, title_nm := t, img_lk := .absent, store_lk := .absent }

/-- A fixed run date for the concrete scenarios. -/
def today0 : String := "20260101"

/-- Boundary record: `discount_rate == 1.0` alone (all other rules failing). -/
def bItemDisc1 : RawItem := mkItem (.val "a") .absent (.val 1) .absent .absent (.val 5) (.val "x")

/-- Boundary record: `original_price == 500000` alone. -/
def bItemFull5 : RawItem := mkItem (.val "a") .absent .absent .absent (.val 500000) (.val 5) (.val "x")

/-- Boundary record: `discount_rate == 1.0001`. -/
def bItemDisc1001 : RawItem :=
  mkItem (.val "a") .absent (.val (mkRat 10001 10000)) .absent .absent (.val 5) (.val "x")

/-- Boundary record: `original_price == 500001`. -/
def bItemFull5001 : RawItem :=
  mkItem (.val "a") .absent .absent .absent (.val 500001) (.val 5) (.val "x")

/-- A record with no `game_id` that survives the filter and is a current sale. -/
def r5cur : RawItem := mkItem .absent .absent (.val (mkRat 6 10)) .absent .absent (.val 5) (.val "x")

/-- A record with no `game_id` and a 320% discount (rule 1 fires). -/
def r5scam : RawItem := mkItem .absent .absent (.val (mkRat 32 10)) .absent .absent (.val 5) (.val "x")

/-- A record with an explicit null `sale_cn` and a 320% discount: rule 1
rejects it before the `sale_count < 3` comparison is ever evaluated. -/
def r10null : RawItem := mkItem (.val "a") .absent (.val (mkRat 32 10)) .absent .absent .null (.val "x")

/-- Scenario C record: game `"100"` at current price 1000. -/
def rC1 : RawItem :=
  mkItem (.val "100") .absent (.val (mkRat 6 10)) (.val 1000) (.val 2000) (.val 5) (.val "x")

/-- Scenario C record: game `"100"` at current price 800. -/
def rC2 : RawItem :=
  mkItem (.val "100") .absent (.val (mkRat 6 10)) (.val 800) (.val 2000) (.val 5) (.val "y")

/-- The scenario C input. -/
def c4input : List RawItem := [rC1, rC2]

/-- Snapshot produced by the scenario C run. -/
def c4snap : Snapshot :=
  match classify today0 c4input with
  | .ok s => s
  | .error _ => default

/-- Filtered records of the scenario C run. -/
def c4infos : List GameInfo :=
  match filteredInfos c4input with
  | .ok l => l
  | .error _ => []

/-- Filler record for the 501-record runs: 50% discount, zero price, zero
sales, game `"a"`. -/
def rFillA : RawItem := mkItem (.val "a") .absent (.val (mkRat 1 2)) .absent .absent (.val 0) (.val "x")

/-- Distinguished record for the 501-record runs: 50% discount, zero price,
100 sales, game `"b"`. -/
def rPopB : RawItem := mkItem (.val "b") .absent (.val (mkRat 1 2)) .absent .absent (.val 100) (.val "x")

/-- A 501-record input whose current-sales accumulator exceeds the 500 cap:
500 copies of `rFillA` followed by `rPopB`. -/
def big501 : List RawItem := List.replicate 500 rFillA ++ [rPopB]

/-- Snapshot produced by the 501-record run. -/
def big501snap : Snapshot :=
  match classify today0 big501 with
  | .ok s => s
  | .error _ => default

/-- Filtered records of the 501-record run. -/
def big501infos : List GameInfo :=
  match filteredInfos big501 with
  | .ok l => l
  | .error _ => []

/-- The normalized form of `rPopB`. -/
def infoB : GameInfo := normalizeItem rPopB

/-- Scenario A page server: pages 1-3 hold two items each, page 4 is empty. -/
def respA : Nat → PageResult :=
  fun p => if p ≤ 3 then .ok [rC1, rC2] else .ok []

/-- Snapshot produced by a run over just `r5cur` (a record with no game id). -/
def c5snap : Snapshot :=
  match classify today0 [r5cur] with
  | .ok s => s
  | .error _ => default

/-- A record with an explicit null `sale_cn` and a 50% discount: rules 1-3 all
fail, so evaluating rule 4 compares `None < 3`. -/
def rNull2 : RawItem := mkItem (.val "a") .absent (.val (mkRat 1 2)) .absent .absent .null (.val "x")

/-- Price contribution of one record to the per-game seen-price map. -/
def extendP (P : String → List Rat) (i : GameInfo) : String → List Rat :=
  fun g =>
    P g ++ (if i.game_id == some g && decide (i.current_price > 0) then [i.current_price] else [])

/-- Invariant of the best-price dict relative to the map `P` of prices seen so
far per game id: keys are distinct, every stored entry belongs to its key, is
tagged, and holds the minimum seen price, and every game id with a qualifying
occurrence has an entry. -/
def BPInv (P : String → List Rat) (bp : List (String × GameInfo)) : Prop :=
  (bp.map Prod.fst).Nodup ∧
  (∀ g e, lookupBP bp g = some e →
    e.game_id = some g ∧ g ≠ "" ∧ e.is_best_price = true ∧
    e.current_price ∈ P g ∧ ∀ q ∈ P g, e.current_price ≤ q) ∧
  (∀ g, g ≠ "" → P g ≠ [] → lookupBP bp g ≠ none)

theorem orZeroNum_eq (o : Option Rat) : orZeroNum o = o.getD 0 := by
  rcases o with _ | v
  · rfl
  · simp only [orZeroNum, Option.getD]
    split <;> simp_all

theorem insertDescBy_perm (key : GameInfo → Rat) (a : GameInfo) (l : List GameInfo) :
    (insertDescBy key a l).Perm (a :: l) := by
  induction l with
  | nil => exact List.Perm.refl _
  | cons b t ih =>
    simp only [insertDescBy]
    split
    · exact (ih.cons b).trans (List.Perm.swap a b t)
    · exact List.Perm.refl _

theorem sortDescBy_perm (key : GameInfo → Rat) (l : List GameInfo) :
    (sortDescBy key l).Perm l := by
  induction l with
  | nil => exact List.Perm.refl _
  | cons a t ih => exact (insertDescBy_perm key a (sortDescBy key t)).trans (ih.cons a)

theorem mem_sortDescBy {key : GameInfo → Rat} {l : List GameInfo} {x : GameInfo} :
    x ∈ sortDescBy key l ↔ x ∈ l :=
  (sortDescBy_perm key l).mem_iff

theorem length_sortDescBy (key : GameInfo → Rat) (l : List GameInfo) :
    (sortDescBy key l).length = l.length :=
  (sortDescBy_perm key l).length_eq

theorem processAll_ok (today : String) :
    ∀ (items : List RawItem) (st st' : PState),
      processAll today st items = .ok st' →
      ∃ infos, filteredInfos items = .ok infos ∧
        st'.current_sales = st.current_sales ++ infos.filter (isCur today) ∧
        st'.best_prices = bestFold st.best_prices infos := by
  intro items
  induction items with
  | nil =>
    intro st st' h
    simp only [processAll, List.foldlM] at h
    cases h
    exact ⟨[], rfl, by simp [bestFold]⟩
  | cons item rest ih =>
    intro st st' h
    simp only [processAll, List.foldlM] at h
    rcases hc : anomalyCheck item with e | b
    · simp [processItem, hc, Bind.bind, Except.bind] at h
    · rcases b with _ | _
      · -- the record survives the filter
        have h' : processAll today (applyInfo today st (normalizeItem item)) rest = .ok st' := by
          simpa [processItem, hc, Bind.bind, Except.bind, pure, Except.pure, processAll] using h
        obtain ⟨infos, hf, hcs, hbp⟩ := ih _ _ h'
        refine ⟨normalizeItem item :: infos, ?_, ?_, ?_⟩
        · simp [filteredInfos, hc, hf, Bind.bind, Except.bind, pure, Except.pure]
        · rw [hcs]
          simp only [applyInfo, List.filter_cons]
          split
          · simp
          · simp
        · rw [hbp]
          simp [bestFold, applyInfo]
      · -- the record is rejected
        have h' : processAll today { st with skipped_scam := st.skipped_scam + 1 } rest
            = .ok st' := by
          simpa [processItem, hc, Bind.bind, Except.bind, pure, Except.pure, processAll] using h
        obtain ⟨infos, hf, hcs, hbp⟩ := ih _ _ h'
        exact ⟨infos, by simp [filteredInfos, hc, hf, Bind.bind, Except.bind, pure, Except.pure], hcs, hbp⟩

theorem classify_ok {today : String} {items : List RawItem} {s : Snapshot}
    (h : classify today items = .ok s) :
    ∃ infos, filteredInfos items = .ok infos ∧
      s = mkSnapshot items.length (infos.filter (isCur today)) (bestFold [] infos) := by
  rcases hp : processAll today initState items with e | st'
  · rw [classify, hp] at h
    simp [Except.map] at h
  · rw [classify, hp] at h
    simp only [Except.map] at h
    obtain ⟨infos, hf, hcs, hbp⟩ := processAll_ok today items initState st' hp
    refine ⟨infos, hf, ?_⟩
    cases h
    simp only [initState] at hcs hbp
    rw [hcs, hbp]
    simp

theorem lookupBP_none_not_mem :
    ∀ {bp : List (String × GameInfo)} {g : String},
      lookupBP bp g = none → g ∉ bp.map Prod.fst := by
  intro bp
  induction bp with
  | nil => simp
  | cons q rest ih =>
    intro g h
    rcases q with ⟨k, e⟩
    simp only [lookupBP] at h
    by_cases hk : k = g
    · simp [hk] at h
    · simp only [hk, if_false] at h
      simp only [List.map_cons, List.mem_cons]
      rintro (hg | hg)
      · exact hk hg.symm
      · exact ih h hg

theorem mem_of_lookupBP :
    ∀ {bp : List (String × GameInfo)} {g : String} {e : GameInfo},
      lookupBP bp g = some e → (g, e) ∈ bp := by
  intro bp
  induction bp with
  | nil => simp [lookupBP]
  | cons q rest ih =>
    intro g e h
    rcases q with ⟨k, e0⟩
    by_cases hk : k = g
    · subst hk
      simp [lookupBP] at h
      subst h
      exact List.mem_cons_self _ _
    · simp only [lookupBP, hk, if_false] at h
      exact List.mem_cons_of_mem _ (ih h)

theorem lookup_of_mem_nodup :
    ∀ {bp : List (String × GameInfo)}, (bp.map Prod.fst).Nodup →
      ∀ {p : String × GameInfo}, p ∈ bp → lookupBP bp p.1 = some p.2 := by
  intro bp
  induction bp with
  | nil => simp
  | cons q rest ih =>
    intro hnd p hp
    rcases q with ⟨k, e⟩
    simp only [List.map_cons, List.nodup_cons] at hnd
    rcases List.mem_cons.mp hp with h | h
    · subst h
      simp [lookupBP]
    · have hne : k ≠ p.1 := by
        intro hk
        exact hnd.1 (hk ▸ List.mem_map_of_mem Prod.fst h)
      simp only [lookupBP, hne, if_false]
      exact ih hnd.2 h

theorem lookupBP_setBP (bp : List (String × GameInfo)) (g0 : String) (v : GameInfo)
    (g : String) :
    lookupBP (setBP bp g0 v) g = if g = g0 then some v else lookupBP bp g := by
  induction bp with
  | nil =>
    by_cases hg : g = g0
    · subst hg
      simp [setBP, lookupBP]
    · simp [setBP, lookupBP, hg, Ne.symm hg]
  | cons q rest ih =>
    rcases q with ⟨k, e⟩
    by_cases hk : k = g0
    · subst hk
      by_cases hg : g = k
      · subst hg
        simp [setBP, lookupBP]
      · simp [setBP, lookupBP, hg, Ne.symm hg]
    · by_cases hg : k = g
      · subst hg
        simp [setBP, lookupBP, hk]
      · simp [setBP, lookupBP, hk, hg, ih]

theorem keys_setBP (bp : List (String × GameInfo)) (g0 : String) (v : GameInfo) :
    (setBP bp g0 v).map Prod.fst =
      if lookupBP bp g0 = none then bp.map Prod.fst ++ [g0] else bp.map Prod.fst := by
  induction bp with
  | nil => simp [setBP, lookupBP]
  | cons q rest ih =>
    rcases q with ⟨k, e⟩
    by_cases hk : k = g0
    · subst hk
      simp [setBP, lookupBP]
    · simp only [setBP, hk, if_false, lookupBP, List.map_cons, ih]
      split
      · simp
      · simp

theorem extendP_ne {P : String → List Rat} {i : GameInfo} {g : String}
    (hne : i.game_id ≠ some g) : extendP P i g = P g := by
  simp [extendP, hne]

theorem extendP_pos {P : String → List Rat} {i : GameInfo} {g : String}
    (hg : i.game_id = some g) (hpos : i.current_price > 0) :
    extendP P i g = P g ++ [i.current_price] := by
  simp [extendP, hg, hpos]

theorem extendP_nonpos {P : String → List Rat} {i : GameInfo} {g : String}
    (hnp : ¬ i.current_price > 0) : extendP P i g = P g := by
  simp [extendP, hnp]

theorem stepBest_none {bp : List (String × GameInfo)} {i : GameInfo}
    (hgid : i.game_id = none) : stepBest bp i = bp := by
  simp [stepBest, hgid]

theorem stepBest_empty {bp : List (String × GameInfo)} {i : GameInfo}
    (hgid : i.game_id = some "") : stepBest bp i = bp := by
  simp [stepBest, hgid]

theorem stepBest_nonpos {bp : List (String × GameInfo)} {i : GameInfo} {gid : String}
    (hgid : i.game_id = some gid) (hnp : ¬ i.current_price > 0) : stepBest bp i = bp := by
  by_cases hz : i.current_price = 0 <;> simp [stepBest, hgid, hz, hnp]

theorem stepBest_insert {bp : List (String × GameInfo)} {i : GameInfo} {gid : String}
    (hgid : i.game_id = some gid) (hne : gid ≠ "") (hpos : i.current_price > 0)
    (hl : lookupBP bp gid = none) :
    stepBest bp i = setBP bp gid { i with is_best_price := true } := by
  have hz : ¬ i.current_price = 0 := ne_of_gt hpos
  simp [stepBest, hgid, hne, hz, hpos, hl]

theorem stepBest_update {bp : List (String × GameInfo)} {i : GameInfo} {gid : String}
    {e : GameInfo} (hgid : i.game_id = some gid) (hne : gid ≠ "")
    (hpos : i.current_price > 0) (hl : lookupBP bp gid = some e)
    (hlt : i.current_price < e.current_price) :
    stepBest bp i = setBP bp gid { i with is_best_price := true } := by
  have hz : ¬ i.current_price = 0 := ne_of_gt hpos
  simp [stepBest, hgid, hne, hz, hpos, hl, hlt]

theorem stepBest_keep {bp : List (String × GameInfo)} {i : GameInfo} {gid : String}
    {e : GameInfo} (hgid : i.game_id = some gid) (hne : gid ≠ "")
    (hpos : i.current_price > 0) (hl : lookupBP bp gid = some e)
    (hge : ¬ i.current_price < e.current_price) :
    stepBest bp i = bp := by
  have hz : ¬ i.current_price = 0 := ne_of_gt hpos
  simp [stepBest, hgid, hne, hz, hpos, hl, hge]

theorem BPInv_stepBest {P : String → List Rat} {bp : List (String × GameInfo)}
    (h : BPInv P bp) (i : GameInfo) : BPInv (extendP P i) (stepBest bp i) := by
  obtain ⟨hnd, hent, hex⟩ := h
  rcases hgid : i.game_id with _ | gid
  · -- no game id: dict unchanged and no price contribution anywhere
    rw [stepBest_none hgid]
    refine ⟨hnd, ?_, ?_⟩
    · intro g e hl
      rw [extendP_ne (by simp [hgid])]
      exact hent g e hl
    · intro g hg hne
      rw [extendP_ne (by simp [hgid])] at hne
      exact hex g hg hne
  · by_cases hpos : i.current_price > 0
    case neg =>
      -- non-positive price: dict unchanged and no price contribution
      rw [stepBest_nonpos hgid hpos]
      refine ⟨hnd, ?_, ?_⟩
      · intro g e hl
        rw [extendP_nonpos hpos]
        exact hent g e hl
      · intro g hg hne
        rw [extendP_nonpos hpos] at hne
        exact hex g hg hne
    case pos =>
      by_cases hemp : gid = ""
      · -- falsy game id: dict unchanged; the contribution is at `""` only,
        -- which no stored entry and no existence obligation ranges over
        subst hemp
        rw [stepBest_empty hgid]
        refine ⟨hnd, ?_, ?_⟩
        · intro g e hl
          obtain ⟨h1, h2, h3, h4, h5⟩ := hent g e hl
          rw [extendP_ne (by simp [hgid]; exact fun hq => h2 hq.symm)]
          exact ⟨h1, h2, h3, h4, h5⟩
        · intro g hg hne
          rw [extendP_ne (by simp [hgid]; exact fun hq => hg hq.symm)] at hne
          exact hex g hg hne
      · rcases hl : lookupBP bp gid with _ | e0
        · -- fresh key: append to the dict
          rw [stepBest_insert hgid hemp hpos hl]
          have hPnil : P gid = [] := by
            by_contra hPne
            exact hex gid hemp hPne hl
          refine ⟨?_, ?_, ?_⟩
          · rw [keys_setBP, if_pos hl]
            simp only [List.nodup_append, List.nodup_cons, List.nodup_nil]
            exact ⟨hnd, ⟨by simp, trivial⟩, by
              intro a ha hb
              simp only [List.mem_singleton] at hb
              subst hb
              exact lookupBP_none_not_mem hl ha⟩
          · intro g e hle
            rw [lookupBP_setBP] at hle
            by_cases hg : g = gid
            · subst hg
              rw [if_pos rfl] at hle
              cases hle
              rw [extendP_pos hgid hpos, hPnil]
              refine ⟨by simpa using hgid, hemp, rfl, by simp, ?_⟩
              intro q hq
              simp only [List.nil_append, List.mem_singleton] at hq
              subst hq
              exact le_refl _
            · rw [if_neg hg] at hle
              obtain ⟨h1, h2, h3, h4, h5⟩ := hent g e hle
              rw [extendP_ne (by simp [hgid]; exact fun hq => hg hq.symm)]
              exact ⟨h1, h2, h3, h4, h5⟩
          · intro g hg hne
            rw [lookupBP_setBP]
            by_cases hgg : g = gid
            · simp [hgg]
            · rw [if_neg hgg]
              rw [extendP_ne (by simp [hgid]; exact fun hq => hgg hq.symm)] at hne
              exact hex g hg hne
        · by_cases hlt : i.current_price < e0.current_price
          · -- cheaper than the stored entry: replace it
            rw [stepBest_update hgid hemp hpos hl hlt]
            refine ⟨?_, ?_, ?_⟩
            · rw [keys_setBP, if_neg (by simp [hl])]
              exact hnd
            · intro g e hle
              rw [lookupBP_setBP] at hle
              by_cases hg : g = gid
              · subst hg
                rw [if_pos rfl] at hle
                cases hle
                obtain ⟨h1, h2, h3, h4, h5⟩ := hent g e0 hl
                rw [extendP_pos hgid hpos]
                refine ⟨by simpa using hgid, hemp, rfl, by simp, ?_⟩
                intro q hq
                rcases List.mem_append.mp hq with hq | hq
                · exact le_of_lt (lt_of_lt_of_le hlt (h5 q hq))
                · simp only [List.mem_singleton] at hq
                  subst hq
                  exact le_refl _
              · rw [if_neg hg] at hle
                obtain ⟨h1, h2, h3, h4, h5⟩ := hent g e hle
                rw [extendP_ne (by simp [hgid]; exact fun hq => hg hq.symm)]
                exact ⟨h1, h2, h3, h4, h5⟩
            · intro g hg hne
              rw [lookupBP_setBP]
              by_cases hgg : g = gid
              · simp [hgg]
              · rw [if_neg hgg]
                rw [extendP_ne (by simp [hgid]; exact fun hq => hgg hq.symm)] at hne
                exact hex g hg hne
          · -- not cheaper: dict unchanged, but the new price still joins `P gid`
            rw [stepBest_keep hgid hemp hpos hl hlt]
            refine ⟨hnd, ?_, ?_⟩
            · intro g e hle
              by_cases hg : g = gid
              · subst hg
                rw [hl] at hle
                cases hle
                obtain ⟨h1, h2, h3, h4, h5⟩ := hent g e0 hl
                rw [extendP_pos hgid hpos]
                refine ⟨h1, h2, h3, List.mem_append.mpr (Or.inl h4), ?_⟩
                intro q hq
                rcases List.mem_append.mp hq with hq | hq
                · exact h5 q hq
                · simp only [List.mem_singleton] at hq
                  subst hq
                  exact le_of_not_lt hlt
              · obtain ⟨h1, h2, h3, h4, h5⟩ := hent g e hle
                rw [extendP_ne (by simp [hgid]; exact fun hq => hg hq.symm)]
                exact ⟨h1, h2, h3, h4, h5⟩
            · intro g hg hne
              by_cases hgg : g = gid
              · subst hgg
                rw [hl]
                simp
              · rw [extendP_ne (by simp [hgid]; exact fun hq => hgg hq.symm)] at hne
                exact hex g hg hne

theorem BPInv_congr {P Q : String → List Rat} {bp : List (String × GameInfo)}
    (hPQ : ∀ g, P g = Q g) (h : BPInv P bp) : BPInv Q bp := by
  obtain ⟨h1, h2, h3⟩ := h
  refine ⟨h1, ?_, ?_⟩
  · intro g e hl
    rw [← hPQ g]
    exact h2 g e hl
  · intro g hg hne
    rw [← hPQ g] at hne
    exact h3 g hg hne

theorem BPInv_bestFold :
    ∀ (infos : List GameInfo) (P : String → List Rat) (bp : List (String × GameInfo)),
      BPInv P bp → BPInv (fun g => P g ++ occPrices infos g) (bestFold bp infos) := by
  intro infos
  induction infos with
  | nil =>
    intro P bp h
    exact BPInv_congr (fun g => by simp [occPrices]) h
  | cons i rest ih =>
    intro P bp h
    have h2 := ih (extendP P i) (stepBest bp i) (BPInv_stepBest h i)
    refine BPInv_congr (fun g => ?_) h2
    by_cases hc : (i.game_id == some g && decide (i.current_price > 0)) = true
    · simp [extendP, occPrices, List.filter_cons, hc]
    · simp only [Bool.not_eq_true] at hc
      simp [extendP, occPrices, List.filter_cons, hc]

theorem BPInv_final (infos : List GameInfo) :
    BPInv (occPrices infos) (bestFold [] infos) := by
  have h0 : BPInv (fun _ => []) [] := by
    refine ⟨List.nodup_nil, ?_, ?_⟩
    · intro g e hl
      simp [lookupBP] at hl
    · intro g hg hne
      simp at hne
  exact BPInv_congr (fun g => by simp) (BPInv_bestFold infos (fun _ => []) [] h0)

theorem fetchFrom_unfold (resp : Nat → PageResult) (target page : Nat) (acc : List RawItem) :
    fetchFrom resp target page acc =
      if acc.length < target then
        match resp page with
        | .fail => acc
        | .ok [] => acc
        | .ok (i :: rest) => fetchFrom resp target (page + 1) (acc ++ i :: rest)
      else acc := by
  rw [fetchFrom]

theorem fetchFrom_spec (resp : Nat → PageResult) (target : Nat) :
    ∀ (n page : Nat) (acc : List RawItem), target - acc.length ≤ n →
      ∃ k : Nat,
        (∀ i, i < k → ∃ its, resp (page + i) = PageResult.ok its ∧ its ≠ []) ∧
        fetchFrom resp target page acc =
          acc ++ (((List.range k).map fun i => pageItems (resp (page + i))).flatten) ∧
        (target ≤ (fetchFrom resp target page acc).length ∨
          resp (page + k) = PageResult.fail ∨ resp (page + k) = PageResult.ok []) := by
  intro n
  induction n with
  | zero =>
    intro page acc hn
    have hle : ¬ acc.length < target := by omega
    refine ⟨0, by omega, ?_, ?_⟩
    · rw [fetchFrom_unfold, if_neg hle]
      simp
    · left
      rw [fetchFrom_unfold, if_neg hle]
      omega
  | succ n ihn =>
    intro page acc hn
    by_cases hlen : acc.length < target
    case neg =>
      refine ⟨0, by omega, ?_, ?_⟩
      · rw [fetchFrom_unfold, if_neg hlen]
        simp
      · left
        rw [fetchFrom_unfold, if_neg hlen]
        omega
    case pos =>
      rcases hr : resp page with _ | its
      · refine ⟨0, by omega, ?_, ?_⟩
        · rw [fetchFrom_unfold, if_pos hlen, hr]
          simp
        · right
          left
          simpa using hr
      · rcases its with _ | ⟨x, rest⟩
        · refine ⟨0, by omega, ?_, ?_⟩
          · rw [fetchFrom_unfold, if_pos hlen, hr]
            simp
          · right
            right
            simpa using hr
        · have hstep : fetchFrom resp target page acc
              = fetchFrom resp target (page + 1) (acc ++ x :: rest) := by
            rw [fetchFrom_unfold, if_pos hlen, hr]
          have hn' : target - (acc ++ x :: rest).length ≤ n := by
            simp only [List.length_append, List.length_cons]
            omega
          obtain ⟨k, hpages, heq, hstop⟩ := ihn (page + 1) (acc ++ x :: rest) hn'
          have hmap : ((List.range k).map fun i => pageItems (resp (page + 1 + i)))
              = (List.range k).map fun i => pageItems (resp (page + Nat.succ i)) :=
            List.map_congr_left fun i _ => by
              rw [show page + 1 + i = page + Nat.succ i from by omega]
          refine ⟨k + 1, ?_, ?_, ?_⟩
          · intro i hi
            rcases i with _ | j
            · exact ⟨x :: rest, by simpa using hr, by simp⟩
            · obtain ⟨its, h1, h2⟩ := hpages j (by omega)
              refine ⟨its, ?_, h2⟩
              rw [show page + (j + 1) = page + 1 + j from by omega]
              exact h1
          · rw [hstep, heq, hmap, List.range_succ_eq_map, List.map_cons, List.map_map,
              List.flatten_cons, Nat.add_zero, hr]
            simp only [pageItems, List.append_assoc, List.cons_append, List.nil_append]
            congr 1
          · rw [hstep]
            rcases hstop with h | h | h
            · left
              exact h
            · right
              left
              rw [show page + (k + 1) = page + 1 + k from by omega]
              exact h
            · right
              right
              rw [show page + (k + 1) = page + 1 + k from by omega]
              exact h

theorem anomalyCheck_eq_spec (item : RawItem) (hsc : item.sale_cn ≠ Fld.null)
    (ht : item.title_nm ≠ Fld.null) :
    anomalyCheck item = .ok (decide (anomalousSpec item)) := by
  rcases hsc' : item.sale_cn with _ | _ | v
  case null => exact absurd hsc' hsc
  all_goals rcases ht' : item.title_nm with _ | _ | s
  case absent.null => exact absurd ht' ht
  case val.null => exact absurd ht' ht
  all_goals
    simp only [anomalyCheck, anomalousSpec, claimSaleCount, claimTitle, hsc', ht', Fld.getD,
      bind, Except.bind, pure, Except.pure, List.any_eq_true]
  all_goals
    split_ifs with h1 h2 h3 h4 h5 <;>
      simp_all [List.any_eq_true]

/-- C3: a record reaching the anomaly filter (its `sale_cn` and `title_nm`,
when present, carrying a value rather than an explicit null) is rejected, with
the scam counter incremented, exactly when one of the five rules holds; at the
boundaries, `discount_rate == 1.0` alone and `original_price == 500000` alone
pass, while `1.0001` and `500001` are rejected. -/
theorem C3_filter_iff :
    (∀ (item : RawItem), item.sale_cn ≠ Fld.null → item.title_nm ≠ Fld.null →
      (anomalyCheck item = .ok true ↔ anomalousSpec item) ∧
      (∀ (today : String) (st : PState),
        (∃ st', processItem today st item = .ok st' ∧
          st'.skipped_scam = st.skipped_scam + 1) ↔ anomalousSpec item)) ∧
    (anomalyCheck bItemDisc1 = .ok false ∧ ¬ anomalousSpec bItemDisc1) ∧
    (anomalyCheck bItemFull5 = .ok false ∧ ¬ anomalousSpec bItemFull5) ∧
    (anomalyCheck bItemDisc1001 = .ok true ∧ anomalousSpec bItemDisc1001) ∧
    (anomalyCheck bItemFull5001 = .ok true ∧ anomalousSpec bItemFull5001) := by
  refine ⟨?_, ⟨by decide, by decide⟩, ⟨by decide, by decide⟩,
    ⟨by decide, by decide⟩, ⟨by decide, by decide⟩⟩
  intro item hsc ht
  have hck := anomalyCheck_eq_spec item hsc ht
  constructor
  · rw [hck]
    by_cases hA : anomalousSpec item <;> simp [hA]
  · intro today st
    by_cases hA : anomalousSpec item
    · have hck2 : anomalyCheck item = .ok true := by rw [hck, decide_eq_true hA]
      constructor
      · intro _
        exact hA
      · intro _
        refine ⟨{ st with skipped_scam := st.skipped_scam + 1 }, ?_, rfl⟩
        simp [processItem, hck2, bind, Except.bind, pure, Except.pure]
    · have hck2 : anomalyCheck item = .ok false := by rw [hck, decide_eq_false hA]
      constructor
      · rintro ⟨st', heq, hskip⟩
        exfalso
        simp only [processItem, hck2, bind, Except.bind, pure, Except.pure,
          Bool.false_eq_true, if_false, Except.ok.injEq] at heq
        subst heq
        simp only [applyInfo] at hskip
        omega
      · intro hA'
        exact absurd hA' hA

/-- C7: in every successfully persisted snapshot, `current_sales` has at most
500 entries, `top_sales` at most 50, and `best_prices` at most 200, whatever
the input size. -/
theorem C7_caps (today : String) (items : List RawItem) (s : Snapshot)
    (h : classify today items = .ok s) :
    s.current_sales.length ≤ 500 ∧ s.top_sales.length ≤ 50 ∧
      s.best_prices.length ≤ 200 := by
  obtain ⟨infos, hf, hs⟩ := classify_ok h
  subst hs
  refine ⟨?_, ?_, ?_⟩ <;>
    simp only [mkSnapshot] <;>
    rw [List.length_take] <;>
    exact inf_le_left

/-- Witness for C7 at the empty input. -/
theorem C7_caps_witness :
    (mkSnapshot 0 [] []).current_sales.length ≤ 500 ∧
      (mkSnapshot 0 [] []).top_sales.length ≤ 50 ∧
      (mkSnapshot 0 [] []).best_prices.length ≤ 200 :=
  C7_caps today0 [] (mkSnapshot 0 [] []) rfl

/-- C1 as stated is false: when the primary snapshot write fails, the run does
report failure, but the legacy write is never attempted — `CommandError` is
raised before the legacy block. -/
theorem C1_counterexample :
    (saveOutputs false true).reportedFailure = true ∧
    (saveOutputs false true).legacyAttempted = false := by
  exact ⟨rfl, rfl⟩

/-- C1 amended: a primary write failure reports failure and skips the legacy
write; the legacy write is attempted (and its failure merely logged) only when
the primary write succeeded. -/
theorem C1_primary_failure_skips_legacy (legacyOk : Bool) :
    (saveOutputs false legacyOk).reportedFailure = true ∧
    (saveOutputs false legacyOk).legacyAttempted = false ∧
    (saveOutputs true legacyOk).legacyAttempted = true ∧
    (saveOutputs true legacyOk).reportedFailure = false := by
  exact ⟨rfl, rfl, rfl, rfl⟩

/-- C6 as stated is false: the snapshot is written through a truncating
in-place `open(..., 'w')`, so a dump interrupted after writing `"ne"` leaves
`"ne"` in the file — not the previous content `"old"` that a
write-temp-then-rename discipline would have preserved. -/
theorem C6_counterexample :
    primarySnapshotWrite "new" "old" (DumpOutcome.interrupted "ne") = "ne" ∧
    primarySnapshotWrite "new" "old" (DumpOutcome.interrupted "ne") ≠ "old" ∧
    primarySnapshotWrite "new" "old" (DumpOutcome.interrupted "ne") ≠
      atomicWriteSpec "new" "old" (DumpOutcome.interrupted "ne") := by
  refine ⟨rfl, by decide, by decide⟩

/-- C6 amended: the primary write is in place and truncating — a completed
dump leaves exactly the payload and an interrupted dump leaves exactly the
partial prefix; the previous content survives in neither case. -/
theorem C6_truncating_write (payload old written : String) :
    primarySnapshotWrite payload old DumpOutcome.completed = payload ∧
    primarySnapshotWrite payload old (DumpOutcome.interrupted written) = written :=
  ⟨rfl, rfl⟩

/-- C9: the fetch loop requests successive pages starting from page 1; every
page consumed before the stop was non-failed and non-empty; the result is the
untruncated concatenation of the fetched pages; and at the stopping point
either the target is reached, or the next page failed, or it was empty.
Concretely, three pages of two items each followed by an empty fourth page
yield exactly six items with no error. -/
theorem C9_fetch_loop :
    (∀ (resp : Nat → PageResult) (target : Nat),
      ∃ k : Nat,
        (∀ i, i < k → ∃ its, resp (1 + i) = PageResult.ok its ∧ its ≠ []) ∧
        fetchLoop resp target =
          (((List.range k).map fun i => pageItems (resp (1 + i))).flatten) ∧
        (target ≤ (fetchLoop resp target).length ∨
          resp (1 + k) = PageResult.fail ∨ resp (1 + k) = PageResult.ok [])) ∧
    fetchLoop respA 2000 = [rC1, rC2, rC1, rC2, rC1, rC2] ∧
    (fetchLoop respA 2000).length = 6 := by
  have hscen : fetchLoop respA 2000 = [rC1, rC2, rC1, rC2, rC1, rC2] := by
    rw [fetchLoop]
    rw [fetchFrom_unfold]
    norm_num [respA]
    rw [fetchFrom_unfold]
    norm_num [respA]
    rw [fetchFrom_unfold]
    norm_num [respA]
    rw [fetchFrom_unfold]
    norm_num [respA]
  refine ⟨?_, hscen, by rw [hscen]; rfl⟩
  intro resp target
  obtain ⟨k, h1, h2, h3⟩ :=
    fetchFrom_spec resp target target 1 [] (by simp)
  exact ⟨k, h1, by simpa using h2, h3⟩

/-- Witness for C3 at the 1.0001-discount boundary record. -/
theorem C3_filter_iff_witness :
    (anomalyCheck bItemDisc1001 = .ok true ↔ anomalousSpec bItemDisc1001) ∧
    (∀ (today : String) (st : PState),
      (∃ st', processItem today st bItemDisc1001 = .ok st' ∧
        st'.skipped_scam = st.skipped_scam + 1) ↔ anomalousSpec bItemDisc1001) :=
  C3_filter_iff.1 bItemDisc1001 (by decide) (by decide)

/-- C2 amended: every persisted `top_sales` entry has `discount_rate ≥ 0.5`,
and whenever the current-sales accumulator fits the 500 cap (equivalently
`stats.current_count ≤ 500`), every `top_sales` entry also occurs by `game_id`
in the persisted `current_sales`; with more than 500 current records the
subset property can fail, because `top_sales` is derived from the accumulator
before truncation. -/
theorem C2_top_sales (today : String) (items : List RawItem) (s : Snapshot)
    (h : classify today items = .ok s) :
    (∀ e ∈ s.top_sales, e.discount_rate ≥ mkRat 1 2) ∧
    (s.stats_current_count ≤ 500 →
      ∀ e ∈ s.top_sales, ∃ e2 ∈ s.current_sales, e2.game_id = e.game_id) := by
  obtain ⟨infos, hf, hs⟩ := classify_ok h
  subst hs
  simp only [mkSnapshot]
  constructor
  · intro e he
    have he1 := List.mem_of_mem_take (List.mem_of_mem_take he)
    have he2 := mem_sortDescBy.mp he1
    have he3 := (List.mem_filter.mp he2).2
    have he4 : orZeroNum (some e.discount_rate) ≥ mkRat 1 2 := of_decide_eq_true he3
    by_cases hz : e.discount_rate = 0
    · exfalso
      rw [orZeroNum_eq, Option.getD_some, hz] at he4
      norm_num [mkRat] at he4
    · rwa [orZeroNum_eq, Option.getD_some] at he4
  · intro hlen e he
    have hlen2 : (sortDescBy discKey (infos.filter (isCur today))).length ≤ 500 := by
      rw [length_sortDescBy]
      exact hlen
    have htake : (sortDescBy discKey (infos.filter (isCur today))).take 500
        = sortDescBy discKey (infos.filter (isCur today)) :=
      List.take_of_length_le hlen2
    have he1 := List.mem_of_mem_take (List.mem_of_mem_take he)
    have he2 := mem_sortDescBy.mp he1
    have he3 := (List.mem_filter.mp he2).1
    refine ⟨e, ?_, rfl⟩
    rw [htake]
    exact he3

/-- Witness for C2 at the scenario-C run. -/
theorem C2_top_sales_witness :
    (∀ e ∈ c4snap.top_sales, e.discount_rate ≥ mkRat 1 2) ∧
    (c4snap.stats_current_count ≤ 500 →
      ∀ e ∈ c4snap.top_sales, ∃ e2 ∈ c4snap.current_sales, e2.game_id = e.game_id) :=
  C2_top_sales today0 c4input c4snap rfl

set_option maxRecDepth 100000 in
/-- C2 fails as stated: in the 501-record run, game `"b"` (the most-sold
half-price game) leads `top_sales`, yet no entry of the persisted, truncated
`current_sales` carries its `game_id`. -/
theorem C2_counterexample :
    classify today0 big501 = .ok big501snap ∧
    ∃ e ∈ big501snap.top_sales,
      ∀ e2 ∈ big501snap.current_sales, e2.game_id ≠ e.game_id := by
  constructor
  · rfl
  · decide

/-- C8 amended: every persisted `current_sales` entry survived the anomaly
filter with a positive discount and an empty or not-yet-past end date; the
accumulator holds exactly the surviving records with those properties
(`stats.current_count` counts them), and when it fits the 500 cap every such
record is persisted; with more than 500 such records the lowest-ranked ones
are cut by the truncation. -/
theorem C8_current_sales (today : String) (items : List RawItem) (s : Snapshot)
    (h : classify today items = .ok s) :
    (∀ e ∈ s.current_sales,
      e.discount_rate > 0 ∧ (e.end_date = "" ∨ pyStrGe e.end_date today = true)) ∧
    (∀ infos, filteredInfos items = .ok infos →
      (∀ e ∈ s.current_sales, e ∈ infos) ∧
      s.stats_current_count = (infos.filter (isCur today)).length ∧
      (s.stats_current_count ≤ 500 →
        ∀ i ∈ infos, isCur today i = true → i ∈ s.current_sales)) := by
  obtain ⟨infos0, hf0, hs⟩ := classify_ok h
  subst hs
  simp only [mkSnapshot]
  constructor
  · intro e he
    have he1 := mem_sortDescBy.mp (List.mem_of_mem_take he)
    have he2 := (List.mem_filter.mp he1).2
    simp only [isCur, Bool.and_eq_true, Bool.or_eq_true, Bool.not_eq_true',
      beq_iff_eq, decide_eq_true_eq] at he2
    exact ⟨he2.2.2, he2.1.symm.imp (fun hg => hg) (fun hg => hg)⟩
  · intro infos hf
    rw [hf0] at hf
    cases hf
    refine ⟨?_, rfl, ?_⟩
    · intro e he
      have he1 := mem_sortDescBy.mp (List.mem_of_mem_take he)
      exact (List.mem_filter.mp he1).1
    · intro hlen i hi hcur
      have hlen2 : (sortDescBy discKey (infos0.filter (isCur today))).length ≤ 500 := by
        rw [length_sortDescBy]
        exact hlen
      rw [List.take_of_length_le hlen2]
      exact mem_sortDescBy.mpr (List.mem_filter.mpr ⟨hi, hcur⟩)

/-- Witness for C8 at the scenario-C run. -/
theorem C8_current_sales_witness :
    (∀ e ∈ c4snap.current_sales,
      e.discount_rate > 0 ∧ (e.end_date = "" ∨ pyStrGe e.end_date today0 = true)) ∧
    (∀ infos, filteredInfos c4input = .ok infos →
      (∀ e ∈ c4snap.current_sales, e ∈ infos) ∧
      c4snap.stats_current_count = (infos.filter (isCur today0)).length ∧
      (c4snap.stats_current_count ≤ 500 →
        ∀ i ∈ infos, isCur today0 i = true → i ∈ c4snap.current_sales)) :=
  C8_current_sales today0 c4input c4snap rfl

set_option maxRecDepth 100000 in
/-- C8 fails as stated: in the 501-record run, `infoB` passes the filter and
satisfies both current-sale conditions, yet the persisted 500-entry
`current_sales` does not contain it. -/
theorem C8_counterexample :
    classify today0 big501 = .ok big501snap ∧
    filteredInfos big501 = .ok big501infos ∧
    infoB ∈ big501infos ∧ isCur today0 infoB = true ∧
    infoB ∉ big501snap.current_sales := by
  refine ⟨rfl, rfl, ?_, ?_, ?_⟩
  · decide
  · decide
  · decide

theorem countP_game_id_le_one {bp : List (String × GameInfo)}
    (hnd : (bp.map Prod.fst).Nodup)
    (hgid : ∀ p ∈ bp, p.2.game_id = some p.1) (g : String) :
    (bp.map Prod.snd).countP (fun e => decide (e.game_id = some g)) ≤ 1 := by
  rw [List.countP_map]
  have h1 : List.countP ((fun e => decide (e.game_id = some g)) ∘ Prod.snd) bp
      = List.countP (fun p => decide (p.1 = g)) bp := by
    refine List.countP_congr ?_
    intro p hp
    simp only [Function.comp, hgid p hp, Option.some.injEq, decide_eq_true_eq]
  rw [h1]
  have h2 : List.countP (fun p => decide (p.1 = g)) bp
      = List.countP (fun k => decide (k = g)) (bp.map Prod.fst) := by
    rw [List.countP_map]
    rfl
  rw [h2]
  have h3 : List.countP (fun k => decide (k = g)) (bp.map Prod.fst)
      = List.count g (bp.map Prod.fst) := by
    rw [List.count]
    refine List.countP_congr ?_
    intro k hk
    simp
  rw [h3]
  exact List.nodup_iff_count_le_one.mp hnd g

/-- C4: within the persisted `best_prices` view each `game_id` occurs at most
once, every stored entry's `current_price` is the minimum over its game's
positive-price occurrences in the filtered input, and — whenever the
best-price map fits the 200 cap — every game id with such an occurrence has
its minimal entry stored. -/
theorem C4_best_prices (today : String) (items : List RawItem) (s : Snapshot)
    (h : classify today items = .ok s) :
    (∀ g : String, s.best_prices.countP (fun e => decide (e.game_id = some g)) ≤ 1) ∧
    (∀ infos, filteredInfos items = .ok infos →
      (∀ e ∈ s.best_prices, ∃ g, e.game_id = some g ∧
        e.current_price ∈ occPrices infos g ∧
        ∀ q ∈ occPrices infos g, e.current_price ≤ q) ∧
      (s.stats_best_prices_count ≤ 200 →
        ∀ g, g ≠ "" → occPrices infos g ≠ [] →
          ∃ e ∈ s.best_prices, e.game_id = some g ∧
            e.current_price ∈ occPrices infos g ∧
            ∀ q ∈ occPrices infos g, e.current_price ≤ q)) := by
  obtain ⟨infos0, hf0, hs⟩ := classify_ok h
  subst hs
  simp only [mkSnapshot]
  obtain ⟨hnd, hent, hex⟩ := BPInv_final infos0
  have hgid : ∀ p ∈ bestFold [] infos0, p.2.game_id = some p.1 := fun p hp =>
    (hent p.1 p.2 (lookup_of_mem_nodup hnd hp)).1
  constructor
  · intro g
    calc (List.take 200 (sortDescBy discKey ((bestFold [] infos0).map Prod.snd))).countP
          (fun e => decide (e.game_id = some g))
        ≤ (sortDescBy discKey ((bestFold [] infos0).map Prod.snd)).countP
            (fun e => decide (e.game_id = some g)) :=
          List.Sublist.countP_le _ (List.take_sublist _ _)
      _ = ((bestFold [] infos0).map Prod.snd).countP
            (fun e => decide (e.game_id = some g)) :=
          List.Perm.countP_eq _ (sortDescBy_perm _ _)
      _ ≤ 1 := countP_game_id_le_one hnd hgid g
  · intro infos hf
    rw [hf0] at hf
    cases hf
    constructor
    · intro e he
      have he1 := mem_sortDescBy.mp (List.mem_of_mem_take he)
      obtain ⟨p, hp, hpe⟩ := List.mem_map.mp he1
      have hl := lookup_of_mem_nodup hnd hp
      obtain ⟨h1, h2, h3, h4, h5⟩ := hent p.1 p.2 hl
      subst hpe
      exact ⟨p.1, h1, h4, h5⟩
    · intro hcap g hg hocc
      have hlk := hex g hg hocc
      rcases hlq : lookupBP (bestFold [] infos0) g with _ | e
      · exact absurd hlq hlk
      · obtain ⟨h1, h2, h3, h4, h5⟩ := hent g e hlq
        have hmem : e ∈ (bestFold [] infos0).map Prod.snd :=
          List.mem_map.mpr ⟨(g, e), mem_of_lookupBP hlq, rfl⟩
        have hlen : (sortDescBy discKey ((bestFold [] infos0).map Prod.snd)).length ≤ 200 := by
          rw [length_sortDescBy]
          exact hcap
        refine ⟨e, ?_, h1, h4, h5⟩
        rw [List.take_of_length_le hlen]
        exact mem_sortDescBy.mpr hmem

/-- Witness for C4 at the scenario-C run (two records of game `"100"` with
prices 1000 and 800). -/
theorem C4_best_prices_witness :
    (∀ g : String, c4snap.best_prices.countP (fun e => decide (e.game_id = some g)) ≤ 1) ∧
    (∀ infos, filteredInfos c4input = .ok infos →
      (∀ e ∈ c4snap.best_prices, ∃ g, e.game_id = some g ∧
        e.current_price ∈ occPrices infos g ∧
        ∀ q ∈ occPrices infos g, e.current_price ≤ q) ∧
      (c4snap.stats_best_prices_count ≤ 200 →
        ∀ g, g ≠ "" → occPrices infos g ≠ [] →
          ∃ e ∈ c4snap.best_prices, e.game_id = some g ∧
            e.current_price ∈ occPrices infos g ∧
            ∀ q ∈ occPrices infos g, e.current_price ≤ q)) :=
  C4_best_prices today0 c4input c4snap rfl

/-- C5 fails as stated: there is no upstream shape check.  `r5cur` (no
`game_id` key at all) passes the anomaly filter and appears in `current_sales`
and `top_sales`, and `r5scam` (no `game_id`, 320% discount) increments the
scam tally — no separate shape-error count exists. -/
theorem C5_counterexample :
    classify today0 [r5cur] = .ok c5snap ∧
    (∃ e ∈ c5snap.current_sales, e.game_id = none) ∧
    (∃ e ∈ c5snap.top_sales, e.game_id = none) ∧
    processItem today0 initState r5scam =
      .ok { initState with skipped_scam := 1 } := by
  refine ⟨rfl, by decide, by decide, by decide⟩

/-- C5 amended: records missing `game_id` or `title` are not rejected
upstream; they run through the anomaly filter like any other record (counting
toward the scam tally when a rule fires) and can appear in `current_sales` and
`top_sales` with a null `game_id`; only `best_prices` excludes them, because
its guard requires a truthy `game_id`. -/
theorem C5_no_shape_check :
    (∃ e ∈ c5snap.current_sales, e.game_id = none) ∧
    processItem today0 initState r5scam = .ok { initState with skipped_scam := 1 } ∧
    (∀ (today : String) (items : List RawItem) (s : Snapshot),
      classify today items = .ok s → ∀ e ∈ s.best_prices, e.game_id ≠ none) := by
  refine ⟨by decide, by decide, ?_⟩
  intro today items s h e he
  obtain ⟨infos0, hf0, hs⟩ := classify_ok h
  subst hs
  simp only [mkSnapshot] at he
  obtain ⟨hnd, hent, hex⟩ := BPInv_final infos0
  have he1 := mem_sortDescBy.mp (List.mem_of_mem_take he)
  obtain ⟨p, hp, hpe⟩ := List.mem_map.mp he1
  have hl := lookup_of_mem_nodup hnd hp
  obtain ⟨h1, -, -, -, -⟩ := hent p.1 p.2 hl
  subst hpe
  rw [h1]
  simp

/-- Witness for the best-prices part of the amended C5 at the scenario-C run. -/
theorem C5_no_shape_check_witness :
    ∀ e ∈ c4snap.best_prices, e.game_id ≠ none :=
  C5_no_shape_check.2.2 today0 c4input c4snap rfl

theorem anomalyCheck_null_sc (item : RawItem) (hsc : item.sale_cn = Fld.null) :
    anomalyCheck item = .error PyErr.typeErr ↔
      ¬ (orZeroNum item.discount_rt.get > 1 ∨
         orZeroNum item.full_price_va.get > 500000 ∨
         (orZeroNum item.discount_rt.get ≥ mkRat 9 10 ∧
           orZeroNum item.sale_price_va.get > 30000)) := by
  simp only [anomalyCheck, hsc, Fld.getD, bind, Except.bind, pure, Except.pure,
    throw, throwThe, MonadExceptOf.throw]
  split_ifs with h1 h2 h3 <;> simp_all

theorem anomalyCheck_null_title (item : RawItem) (hsc : item.sale_cn ≠ Fld.null)
    (ht : item.title_nm = Fld.null) :
    anomalyCheck item = .error PyErr.attrErr ↔
      ¬ (orZeroNum item.discount_rt.get > 1 ∨
         orZeroNum item.full_price_va.get > 500000 ∨
         (orZeroNum item.discount_rt.get ≥ mkRat 9 10 ∧
           orZeroNum item.sale_price_va.get > 30000) ∨
         (claimSaleCount item < 3 ∧ orZeroNum item.discount_rt.get ≥ mkRat 19 20)) := by
  rcases hsc' : item.sale_cn with _ | _ | v
  case null => exact absurd hsc' hsc
  all_goals
    simp only [anomalyCheck, claimSaleCount, hsc', ht, Fld.getD, bind, Except.bind,
      pure, Except.pure, throw, throwThe, MonadExceptOf.throw]
  all_goals split_ifs with h1 h2 h3 h4 <;> simp_all

/-- C10 amended: per-record processing is total whenever `sale_cn` and
`title_nm` are not explicit nulls; an explicit null `sale_cn` raises a
`TypeError` (`None < 3`) exactly when rules 1-3 do not already reject the
record, and an explicit null `title_nm` raises an `AttributeError`
(`None.lower()`) exactly when rules 1-4 do not; such an exception propagates
out of the loop and aborts the whole run instead of skipping the record. -/
theorem C10_null_fields :
    (∀ (item : RawItem), item.sale_cn ≠ Fld.null → item.title_nm ≠ Fld.null →
      ∀ (today : String) (st : PState), ∃ st', processItem today st item = .ok st') ∧
    (∀ item : RawItem, item.sale_cn = Fld.null →
      (anomalyCheck item = .error PyErr.typeErr ↔
        ¬ (orZeroNum item.discount_rt.get > 1 ∨
           orZeroNum item.full_price_va.get > 500000 ∨
           (orZeroNum item.discount_rt.get ≥ mkRat 9 10 ∧
             orZeroNum item.sale_price_va.get > 30000)))) ∧
    (∀ item : RawItem, item.sale_cn ≠ Fld.null → item.title_nm = Fld.null →
      (anomalyCheck item = .error PyErr.attrErr ↔
        ¬ (orZeroNum item.discount_rt.get > 1 ∨
           orZeroNum item.full_price_va.get > 500000 ∨
           (orZeroNum item.discount_rt.get ≥ mkRat 9 10 ∧
             orZeroNum item.sale_price_va.get > 30000) ∨
           (claimSaleCount item < 3 ∧ orZeroNum item.discount_rt.get ≥ mkRat 19 20)))) ∧
    (∀ (today : String) (pre post : List RawItem) (item : RawItem) (e : PyErr)
        (st1 : PState),
      anomalyCheck item = .error e → processAll today initState pre = .ok st1 →
      classify today (pre ++ item :: post) = .error e) := by
  refine ⟨?_, anomalyCheck_null_sc, anomalyCheck_null_title, ?_⟩
  · intro item hsc ht today st
    have hck := anomalyCheck_eq_spec item hsc ht
    by_cases hA : anomalousSpec item
    · refine ⟨{ st with skipped_scam := st.skipped_scam + 1 }, ?_⟩
      have hck2 : anomalyCheck item = .ok true := by rw [hck, decide_eq_true hA]
      simp [processItem, hck2, bind, Except.bind, pure, Except.pure]
    · refine ⟨applyInfo today st (normalizeItem item), ?_⟩
      have hck2 : anomalyCheck item = .ok false := by rw [hck, decide_eq_false hA]
      simp [processItem, hck2, bind, Except.bind, pure, Except.pure]
  · intro today pre post item e st1 he hpre
    have habort : processAll today initState (pre ++ item :: post) = .error e := by
      simp only [processAll] at hpre ⊢
      rw [List.foldlM_append, hpre]
      simp [List.foldlM, processItem, he, bind, Except.bind]
    simp only [classify, habort, Except.map]

/-- Witness for C10: `rNull2` (null `sale_cn`, 50% discount) raises the
`TypeError`, since rules 1-3 all fail for it. -/
theorem C10_null_fields_witness : anomalyCheck rNull2 = .error PyErr.typeErr :=
  (C10_null_fields.2.1 rNull2 rfl).mpr (by decide)

/-- C10 fails as stated: `r10null` carries an explicit null `sale_cn`, yet
rule 1 (320% discount) rejects it before the `None < 3` comparison is ever
evaluated — the record is counted and skipped, and no exception is raised. -/
theorem C10_counterexample :
    r10null.sale_cn = Fld.null ∧
    anomalyCheck r10null = .ok true ∧
    processItem today0 initState r10null =
      .ok { initState with skipped_scam := 1 } := by
  refine ⟨rfl, by decide, by decide⟩
